import Mathlib

/-!
Verification development for the infinitiV scene-generation pipeline.

The definitions below are a shallow embedding of the Python sources:
`src/agents/script_generator.py` (timeline assembly), `src/agents/scene_renderer.py`
(scene compilation to a Ren'Py-style script and the HTML preview player) and
`src/agents/voice_generator.py` (voice registry and audio provisioning).
Python dictionaries with optional string fields are modelled as structures whose
string fields default to `""` (Python treats a missing key and an empty string
the same way in every truthiness test the code performs).  Stateful code is
modelled by explicit state passing; the file system is an association list from
paths to byte counts; external collaborators are parameters.
-/

/-- Voice-shaping attributes of a dialogue block (the `traits` mapping in the
source).  The empty string models an absent key. -/
structure Traits where
  age_range : String := ""
  gender : String := ""
  voice_style : String := ""
  accent : String := ""
  elevenlabs_voice_id : String := ""
  deriving Repr, DecidableEq

/-- One timeline block (the loosely typed dict flowing through the pipeline).
The discriminator is the `type` string; unused fields stay at their default. -/
structure Block where
  id : String := ""
  type : String := ""
  character : String := ""
  text : String := ""
  emotion : String := ""
  setting : String := ""
  description : String := ""
  traits : Traits := {}
  audio : String := ""
  deriving Repr, DecidableEq

/-- Scene plan as consumed by `_structure_as_json`: only the `setting` and
`tone` keys are read, both through `.get` with defaults, so `Option` models a
possibly missing key. -/
structure ScenePlan where
  setting : Option String := none
  tone : Option String := none
  deriving Repr, DecidableEq

/-- The synthetic head block appended first by `_structure_as_json`
(`script_generator.py` lines 351-356).  Note the two different defaults the
source uses for the missing setting. -/
def sceneStartBlock (plan : ScenePlan) : Block :=
  { id := "scene_start"
    type := "scene"
    setting := plan.setting.getD "Unknown location"
    description := "Scene begins in " ++ plan.setting.getD "a location" ++
      " with a " ++ plan.tone.getD "neutral" ++ " atmosphere." }

/-- The interleaving loop of `_structure_as_json` (lines 359-380) together with
the two trailing `while` loops.  `i` is the Python loop index, the second
argument the number of remaining iterations (`range(max_items * 2)`); on an
even iteration the head action (if any) is appended and on every iteration the
head dialogue (if any) is appended; when the fuel is exhausted the leftover
actions and then the leftover dialogues are appended. -/
def structLoop : Nat → Nat → List Block → List Block → List Block
  | _, 0, acts, dials => acts ++ dials
  | i, fuel + 1, acts, dials =>
    if i % 2 = 0 then
      match acts, dials with
      | a :: as, d :: ds => a :: d :: structLoop (i + 1) fuel as ds
      | a :: as, [] => a :: structLoop (i + 1) fuel as []
      | [], d :: ds => d :: structLoop (i + 1) fuel [] ds
      | [], [] => structLoop (i + 1) fuel [] []
    else
      match dials with
      | d :: ds => d :: structLoop (i + 1) fuel acts ds
      | [] => structLoop (i + 1) fuel acts []

/-- The trailing id-fixing loop of `_structure_as_json` (lines 382-386):
`for i, block in enumerate(structured_script): if not block.get('id'):
block['id'] = f"block_{i}"`. -/
def assignIdsFrom : Nat → List Block → List Block
  | _, [] => []
  | i, b :: bs =>
    (if b.id = "" then { b with id := "block_" ++ toString i } else b) ::
      assignIdsFrom (i + 1) bs

/-- Id fixing over the whole assembled list. -/
def assignIds (l : List Block) : List Block := assignIdsFrom 0 l

/-- `ScriptGenerator._structure_as_json`: scene head, interleave loop, leftover
loops, id fixing. -/
def structure_as_json (dialogue actions : List Block) (plan : ScenePlan) :
    List Block :=
  assignIds (sceneStartBlock plan ::
    structLoop 0 (max dialogue.length actions.length * 2) actions dialogue)

/-- Closed-form description of what the interleave loop actually produces:
each action is followed by up to two dialogues (dialogue is consumed at twice
the rate of actions), and whichever stream remains is appended in order. -/
def chunkMerge : List Block → List Block → List Block
  | [], ds => ds
  | a :: as, ds => a :: (ds.take 2 ++ chunkMerge as (ds.drop 2))

/-- Modelled from the spec sentence of C1: strict round-robin with the action
before the dialogue in every round, the leftover of the longer stream appended
afterwards in original order. -/
def roundRobinMerge : List Block → List Block → List Block
  | [], ds => ds
  | a :: as, [] => a :: roundRobinMerge as []
  | a :: as, d :: ds => a :: d :: roundRobinMerge as ds

theorem structLoop_nil_dials (fuel : Nat) :
    ∀ (i : Nat) (acts : List Block), structLoop i fuel acts [] = acts := by
  induction fuel with
  | zero => intro i acts; simp [structLoop]
  | succ n ih =>
    intro i acts
    by_cases h : i % 2 = 0
    · cases acts with
      | nil => simp [structLoop, h, ih]
      | cons a as => simp [structLoop, h, ih]
    · simp [structLoop, h, ih]

theorem structLoop_nil_acts (fuel : Nat) :
    ∀ (i : Nat) (dials : List Block), structLoop i fuel [] dials = dials := by
  induction fuel with
  | zero => intro i dials; simp [structLoop]
  | succ n ih =>
    intro i dials
    by_cases h : i % 2 = 0
    · cases dials with
      | nil => simp [structLoop, h, ih]
      | cons d ds => simp [structLoop, h, ih]
    · cases dials with
      | nil => simp [structLoop, h, ih]
      | cons d ds => simp [structLoop, h, ih]

/-- The loop body only looks at the parity of the iteration index. -/
theorem structLoop_parity (fuel : Nat) :
    ∀ (i : Nat) (acts dials : List Block),
      structLoop (i + 2) fuel acts dials = structLoop i fuel acts dials := by
  induction fuel with
  | zero => intro i acts dials; simp [structLoop]
  | succ n ih =>
    intro i acts dials
    have hmod : (i + 2) % 2 = i % 2 := Nat.add_mod_right i 2
    by_cases h : i % 2 = 0
    · cases acts with
      | nil =>
        cases dials with
        | nil => simp [structLoop, h, hmod, ih]
        | cons d ds => simp [structLoop, h, hmod, ih]
      | cons a as =>
        cases dials with
        | nil => simp [structLoop, h, hmod, ih]
        | cons d ds => simp [structLoop, h, hmod, ih]
    · cases dials with
      | nil => simp [structLoop, h, hmod, ih]
      | cons d ds => simp [structLoop, h, hmod, ih]

/-- Appending no dialogues leaves the actions unchanged. -/
theorem chunkMerge_nil_dials (acts : List Block) : chunkMerge acts [] = acts := by
  induction acts with
  | nil => rfl
  | cons a as ih => simp [chunkMerge, ih]

/-- With enough fuel for all actions, the loop computes `chunkMerge`. -/
theorem structLoop_eq_chunkMerge :
    ∀ (acts : List Block) (fuel : Nat), acts.length * 2 ≤ fuel →
      ∀ dials : List Block, structLoop 0 fuel acts dials = chunkMerge acts dials := by
  intro acts
  induction acts with
  | nil => intro fuel _ dials; simp [structLoop_nil_acts, chunkMerge]
  | cons a as ih =>
    intro fuel hfuel dials
    have hlen : (a :: as).length * 2 = as.length * 2 + 2 := by
      simp [List.length_cons]; omega
    have h2 : 2 ≤ fuel := le_trans (by omega) (hlen ▸ hfuel)
    obtain ⟨f, rfl⟩ : ∃ f, fuel = f + 2 := ⟨fuel - 2, by omega⟩
    have hf : as.length * 2 ≤ f := by
      have := hlen ▸ hfuel
      omega
    cases dials with
    | nil =>
      show structLoop 0 (f + 1 + 1) (a :: as) [] = chunkMerge (a :: as) []
      simp [structLoop, structLoop_nil_dials, chunkMerge, chunkMerge_nil_dials]
    | cons d ds =>
      cases ds with
      | nil =>
        show structLoop 0 (f + 1 + 1) (a :: as) [d] = chunkMerge (a :: as) [d]
        simp [structLoop, structLoop_nil_dials, chunkMerge, chunkMerge_nil_dials]
      | cons d2 ds2 =>
        show structLoop 0 (f + 1 + 1) (a :: as) (d :: d2 :: ds2) =
          chunkMerge (a :: as) (d :: d2 :: ds2)
        have step2 : structLoop 2 f as ds2 = structLoop 0 f as ds2 :=
          structLoop_parity f 0 as ds2
        simp [structLoop, chunkMerge, step2, ih f hf ds2]

theorem chunkMerge_perm (acts : List Block) :
    ∀ dials : List Block, (chunkMerge acts dials).Perm (acts ++ dials) := by
  induction acts with
  | nil => intro dials; simp [chunkMerge]
  | cons a as ih =>
    intro dials
    show (a :: (dials.take 2 ++ chunkMerge as (dials.drop 2))).Perm
      (a :: (as ++ dials))
    refine List.Perm.cons a ?_
    refine (List.Perm.append_left (dials.take 2) (ih (dials.drop 2))).trans ?_
    have h := List.perm_append_comm_assoc (dials.take 2) as (dials.drop 2)
    simpa [List.take_append_drop] using h

theorem acts_sublist_chunkMerge (acts : List Block) :
    ∀ dials : List Block, acts.Sublist (chunkMerge acts dials) := by
  induction acts with
  | nil => intro dials; simp [chunkMerge]
  | cons a as ih =>
    intro dials
    have h : as.Sublist (dials.take 2 ++ chunkMerge as (dials.drop 2)) :=
      (ih (dials.drop 2)).trans (List.sublist_append_right _ _)
    exact List.Sublist.cons₂ a h

theorem dials_sublist_chunkMerge (acts : List Block) :
    ∀ dials : List Block, dials.Sublist (chunkMerge acts dials) := by
  induction acts with
  | nil => intro dials; simp [chunkMerge]
  | cons a as ih =>
    intro dials
    have h : (dials.drop 2).Sublist (chunkMerge as (dials.drop 2)) :=
      ih (dials.drop 2)
    have h2 : dials.Sublist (dials.take 2 ++ chunkMerge as (dials.drop 2)) := by
      have := List.Sublist.append (List.Sublist.refl (dials.take 2)) h
      simpa [List.take_append_drop] using this
    exact h2.cons a

theorem assignIdsFrom_eq_self (l : List Block) :
    ∀ i : Nat, (∀ b ∈ l, b.id ≠ "") → assignIdsFrom i l = l := by
  induction l with
  | nil => intro i _; rfl
  | cons b bs ih =>
    intro i h
    have hb : b.id ≠ "" := h b (List.mem_cons_self b bs)
    have hbs : ∀ x ∈ bs, x.id ≠ "" := fun x hx => h x (List.mem_cons_of_mem b hx)
    simp [assignIdsFrom, hb, ih (i + 1) hbs]

theorem assignIds_eq_self (l : List Block) (h : ∀ b ∈ l, b.id ≠ "") :
    assignIds l = l := assignIdsFrom_eq_self l 0 h

/-- Demo dialogue block used in concrete witnesses and counterexamples. -/
def dlg (i ch tx : String) : Block :=
  { id := i, type := "dialogue", character := ch, text := tx }

/-- Demo action block. -/
def act (i d : String) : Block :=
  { id := i, type := "action", description := d }

/-- Demo environment block. -/
def envB (i d : String) : Block :=
  { id := i, type := "environment", description := d }

/-- C1 (counterexample): at D = [d0, d1], A = [a0, a1] the assembled timeline
is not the claimed round-robin merge (the code emits a0, d0, d1, a1 after the
scene head, not a0, d0, a1, d1). -/
theorem c1_counterexample :
    structure_as_json [dlg "d0" "A" "Hi", dlg "d1" "B" "Hello"]
        [act "a0" "x", act "a1" "y"] {} ≠
      sceneStartBlock {} ::
        roundRobinMerge [act "a0" "x", act "a1" "y"]
          [dlg "d0" "A" "Hi", dlg "d1" "B" "Hello"] := by
  decide

/-- C1 (amended): after the leading scene block the timeline is the merge in
which each remaining action is followed by up to two dialogues (dialogue is
consumed at twice the rate of actions); only the first round has the claimed
"A[k] then D[k]" shape, the shorter stream is skipped rather than padded, and
any leftover of the longer stream is appended in original order. -/
theorem c1_amended_interleave (D A : List Block) (plan : ScenePlan) :
    structure_as_json D A plan =
      assignIds (sceneStartBlock plan :: chunkMerge A D) := by
  unfold structure_as_json
  rw [structLoop_eq_chunkMerge A _ ?_ D]
  have := Nat.le_max_right D.length A.length
  omega

/-- C2: the assembled timeline starts with exactly the synthetic scene block
and its remainder contains every element of D and of A exactly once, with both
relative orders preserved (stated for producer blocks that carry ids, so that
the id-fixing pass is the identity). -/
theorem c2_assembled_timeline (D A : List Block) (plan : ScenePlan)
    (hD : ∀ b ∈ D, b.id ≠ "") (hA : ∀ b ∈ A, b.id ≠ "") :
    ∃ rest, structure_as_json D A plan = sceneStartBlock plan :: rest ∧
      rest.Perm (D ++ A) ∧ D.Sublist rest ∧ A.Sublist rest := by
  refine ⟨chunkMerge A D, ?_, ?_, ?_, ?_⟩
  · rw [c1_amended_interleave]
    apply assignIds_eq_self
    intro b hb
    rcases List.mem_cons.mp hb with h | h
    · subst h; simp [sceneStartBlock]
    · have hmem : b ∈ A ++ D := (chunkMerge_perm A D).mem_iff.mp h
      rcases List.mem_append.mp hmem with h' | h'
      · exact hA b h'
      · exact hD b h'
  · exact (chunkMerge_perm A D).trans List.perm_append_comm
  · exact dials_sublist_chunkMerge A D
  · exact acts_sublist_chunkMerge A D

/-- Witness for C2 at a concrete input. -/
theorem c2_assembled_timeline_witness :
    ∃ rest,
      structure_as_json [dlg "d0" "A" "Hi", dlg "d1" "B" "Hello"]
          [act "a0" "x"] {} = sceneStartBlock {} :: rest ∧
        rest.Perm ([dlg "d0" "A" "Hi", dlg "d1" "B" "Hello"] ++ [act "a0" "x"]) ∧
        List.Sublist [dlg "d0" "A" "Hi", dlg "d1" "B" "Hello"] rest ∧
        List.Sublist [act "a0" "x"] rest :=
  c2_assembled_timeline [dlg "d0" "A" "Hi", dlg "d1" "B" "Hello"]
    [act "a0" "x"] {} (by decide) (by decide)

/-- C3 (code evaluated at the failing input): two producer blocks that arrive
sharing the id "x" keep that id, so the final sequence has a duplicate id and
uniqueness is not re-validated. -/
theorem c3_duplicate_id_evaluation :
    ((structure_as_json [dlg "x" "A" "Hi", dlg "x" "B" "Hello"] [] {}).map
        Block.id) = ["scene_start", "x", "x"] ∧
      ¬ ((structure_as_json [dlg "x" "A" "Hi", dlg "x" "B" "Hello"] [] {}).map
        Block.id).Nodup := by
  constructor
  · decide
  · decide

/-- Python `str.split(sep)` on a character list: separator occurrences delimit
groups, empty groups included (`"a__b".split("_") == ["a", "", "b"]`). -/
def splitChar (sep : Char) : List Char → List (List Char)
  | [] => [[]]
  | c :: cs =>
    let r := splitChar sep cs
    if c = sep then [] :: r
    else
      match r with
      | [] => [[c]]
      | g :: gs => (c :: g) :: gs

/-- Python `"_".join(groups)` on character lists. -/
def joinUnderscore : List (List Char) → List Char
  | [] => []
  | [g] => g
  | g :: gs => g ++ '_' :: joinUnderscore gs

/-- `SceneRenderer._sanitize_name` (scene_renderer.py lines 874-886): lower-case
alphanumerics, other characters to underscore, collapse repeated underscores,
prepend an underscore before a leading digit, empty result becomes "unknown"
(character classes modelled at the ASCII level). -/
def sanitize_name (raw : String) : String :=
  let clean := raw.data.map fun ch => if ch.isAlphanum then ch.toLower else '_'
  let clean := joinUnderscore ((splitChar '_' clean).filter (fun g => !g.isEmpty))
  let clean :=
    match clean with
    | c :: _ => if c.isDigit then '_' :: clean else clean
    | [] => []
  if clean = [] then "unknown" else String.mk clean

/-- `list(dict.fromkeys(xs))`: first occurrences, original order. -/
def dedupFirstAux : List String → List String → List String
  | _, [] => []
  | seen, x :: xs =>
    if x ∈ seen then dedupFirstAux seen xs
    else x :: dedupFirstAux (seen ++ [x]) xs

/-- Deduplication preserving first occurrences, as `dict.fromkeys` does. -/
def dedupFirst (xs : List String) : List String := dedupFirstAux [] xs

/-- The `char_var_for_name` mapping of `_generate_renpy_script` (lines 529-532):
dialogue characters in order of first appearance, each mapped to
`char_<sanitized>`. -/
def charVarForName (script : List Block) : List (String × String) :=
  let characters := (script.filter (fun b => b.type == "dialogue")).map
    Block.character
  (dedupFirst characters).map (fun name => (name, "char_" ++ sanitize_name name))

/-- Association-list lookup with a default, as `dict.get(key, default)`. -/
def lookupD (m : List (String × String)) (k dflt : String) : String :=
  match m.find? (fun p => p.1 == k) with
  | some p => p.2
  | none => dflt

/-- The colour palette of `_generate_renpy_script` (lines 578-583). -/
def colourPalette : List (String × String) :=
  [("Character A", "#66b3ff"), ("Character B", "#ff6b6b"),
   ("Detective", "#4ecdc4"), ("Suspect", "#ffe66d")]

/-- The fixed and per-character header lines of `_generate_renpy_script`
(lines 535-589): background and character image declarations, transforms, the
unconditional sound-effect catalogue, and the character definitions. -/
def renpyHeader (charVars : List (String × String))
    (bgImages : List (String × String)) : List String :=
  ["# ∞-V Generated Scene Script",
   "# This script was automatically generated by Infiniti-V",
   "",
   "# Background images",
   "image bg background = \"images/backgrounds/background.png\""] ++
  bgImages.map (fun p =>
    "image bg " ++ p.1 ++ " = \"images/backgrounds/" ++ p.2 ++ "\"") ++
  ["",
   "# Character images - neutral pose"] ++
  charVars.map (fun p =>
    "image " ++ p.2 ++ " = \"images/characters/" ++ p.2 ++ "_neutral.png\"") ++
  ["",
   "# Define transforms for character movement and positioning",
   "transform left:\n    xalign 0.3\n    yalign 1.0",
   "transform right:\n   xalign 0.7\n    yalign 1.0",
   "transform center:\n    xalign 0.5\n    yalign 1.0",
   "",
   "transform appear:\n  alpha 0.0\n    ease 1.0\n    alpha 1.0",
   "transform focus:\n   zoom 1.1\n    ease 0.5\n    alpha 1.0",
   "transform unfocus:\n   ease 0.5\n    zoom 1.0",
   "",
   "# Sound effects",
   "define audio.rain      = \"audio/sfx_rain.mp3\"",
   "define audio.footsteps = \"audio/sfx_footsteps.mp3\"",
   "define audio.door      = \"audio/sfx_door.mp3\"",
   "define audio.ambient   = \"audio/sfx_ambient.mp3\"",
   "",
   "# Define characters"] ++
  charVars.map (fun p =>
    "define " ++ p.2 ++ " = Character(\"" ++ p.1 ++ "\", color=\"" ++
      lookupD colourPalette p.1 "#66b3ff" ++ "\")") ++
  [""]

/-- The fixed scene-opening lines (lines 592-600); the scene comment text is
hard-coded in the source independently of the script. -/
def sceneOpening : List String :=
  ["# Main scene",
   "label start:",
   "    # Scene: Unknown location",
   "    # Scene begins in Unknown location with a neutral atmosphere.",
   "    scene bg background",
   "    with fade",
   ""]

/-- `os.path.basename`: the component after the last "/". -/
def basename (p : String) : String :=
  match (splitChar '/' p.data).getLast? with
  | some g => String.mk g
  | none => p

/-- The screen-position rule of line 628: `"left" if "a" in var else "right"`. -/
def posFor (var : String) : String :=
  if var.data.contains 'a' then "left" else "right"

/-- The per-block loop of `_generate_renpy_script` (lines 602-641), threading
the `shown` set: environment and movement blocks emit descriptive lines only,
unrecognized types are skipped, dialogue blocks emit a one-time entrance, an
optional voice cue and the spoken line. -/
def renpyBody (charVars : List (String × String))
    (audio : List (String × String)) : List Block → List String → List String
  | [], _ => []
  | blk :: rest, shown =>
    let var := lookupD charVars blk.character ""
    if blk.type == "environment" then
      ("    # Environment: " ++ blk.description) ::
        ("    \"The camera slowly pans across the " ++
          String.mk (blk.description.data.map Char.toLower) ++
          ".\"\n") :: renpyBody charVars audio rest shown
    else if blk.type == "movement" then
      ("    # Movement: " ++ blk.description) ::
        renpyBody charVars audio rest shown
    else if blk.type != "dialogue" then
      renpyBody charVars audio rest shown
    else
      let entrShown :=
        if var != "" && !(shown.contains var) then
          (["    # Show " ++ blk.character ++ " on the " ++ posFor var,
            "    show " ++ var ++ " at " ++ posFor var ++ ", appear",
            ""], shown ++ [var])
        else ([], shown)
      let voiceLines :=
        match audio.find? (fun p => p.1 == blk.id) with
        | some p => ["    voice \"audio/" ++ basename p.2 ++ "\""]
        | none => []
      entrShown.1 ++ voiceLines ++
        ("    " ++ var ++ " \"" ++ blk.text ++ "\"\n") ::
          renpyBody charVars audio rest entrShown.2

/-- The fixed wrap-up lines (lines 643-648). -/
def renpyWrapup : List String :=
  ["    # Scene complete",
   "    \"Scene complete! Thank you for watching this ∞-V generated scene.\"",
   "    return",
   ""]

/-- `SceneRenderer._generate_renpy_script` as the list of emitted lines (the
source joins them with a newline at the very end). -/
def generate_renpy_script (script : List Block)
    (audio : List (String × String)) (bgImages : List (String × String)) :
    List String :=
  let charVars := charVarForName script
  renpyHeader charVars bgImages ++ sceneOpening ++
    renpyBody charVars audio script [] ++ renpyWrapup

/-- C4 (counterexample): in the two-character scenario D = [A says Hi,
B says Hello] the second character is shown at the left, not at the right as
the claimed ordinal alternation demands. -/
theorem c4_counterexample :
    ("    show char_b at left, appear" ∈
        generate_renpy_script [dlg "d0" "A" "Hi", dlg "d1" "B" "Hello"] [] []) ∧
      ¬ ("    show char_b at right, appear" ∈
        generate_renpy_script [dlg "d0" "A" "Hi", dlg "d1" "B" "Hello"] [] []) := by
  constructor
  · decide
  · decide

/-- C4 (amended): the position rule is the substring test `"a" in var` on the
character's variable; the variable always starts with "char_", which contains
the letter a, so every character (first, second, or later) is placed on the
left, and in the two-character scenario both entrance instructions use left. -/
theorem c4_amended_always_left :
    (∀ name : String, posFor ("char_" ++ name) = "left") ∧
      ("    show char_a at left, appear" ∈
        generate_renpy_script [dlg "d0" "A" "Hi", dlg "d1" "B" "Hello"] [] []) ∧
      ("    show char_b at left, appear" ∈
        generate_renpy_script [dlg "d0" "A" "Hi", dlg "d1" "B" "Hello"] [] []) := by
  refine ⟨?_, by decide, by decide⟩
  intro name
  have h : (("char_" ++ name).data).contains 'a' = true := by simp
  simp [posFor, h]

/-- Python `", ".join(parts)`. -/
def joinComma : List String → String
  | [] => ""
  | [s] => s
  | s :: ss => s ++ ", " ++ joinComma ss

/-- State of a `VoiceGenerator` instance: the process-wide `voice_cache`
dictionary (the source keys it by both character names and voice descriptions)
plus a counter of creation requests issued to the voice collaborator, used to
express the idempotence claim. -/
structure VoiceGenState where
  voice_cache : List (String × String) := []
  creations : Nat := 0
  deriving Repr, DecidableEq

/-- Association-list lookup, as a Python `dict` read (`key in d` / `d[key]`);
a cons at the head shadows older bindings, as an assignment overwrites. -/
def alistFind (m : List (String × String)) (k : String) : Option String :=
  match m.find? (fun p => p.1 == k) with
  | some p => some p.2
  | none => none

/-- `VoiceGenerator._build_voice_description` (voice_generator.py lines
165-184): concatenate the present traits in fixed order, add the emotion tone
when not neutral, default to "adult, neutral, clear". -/
def build_voice_description (traits : Traits) (emotion : String) : String :=
  let parts : List String :=
    (if traits.age_range != "" then [traits.age_range] else []) ++
    (if traits.gender != "" then [traits.gender] else []) ++
    (if traits.voice_style != "" then [traits.voice_style] else []) ++
    (if traits.accent != "" then [traits.accent ++ " accent"] else []) ++
    (if emotion != "" && emotion != "neutral" then [emotion ++ " tone"] else [])
  let parts := if parts.isEmpty then ["adult", "neutral", "clear"] else parts
  "A " ++ joinComma parts ++ " voice."

/-- `VoiceGenerator._get_fallback_voice_id` (lines 258-266): a fixed default
handle selected by the lower-cased gender trait. -/
def get_fallback_voice_id (traits : Traits) : String :=
  let gender := String.mk
    ((if traits.gender != "" then traits.gender else "neutral").data.map
      Char.toLower)
  if gender = "male" then "pNInz6obpgDQGcFmaJgB"
  else if gender = "female" then "21m00Tcm4TlvDq8ikWAM"
  else "21m00Tcm4TlvDq8ikWAM"

/-- `VoiceGenerator._create_voice_from_description` (lines 186-219).  The
collaborator argument models the two ElevenLabs calls; `none` models any
failure (the source catches the exception and returns `None` without caching).
A cache hit returns without issuing a request; a successful creation caches
the handle under the description. -/
def create_voice_from_description (collab : String → Option String)
    (st : VoiceGenState) (description : String) :
    Option String × VoiceGenState :=
  match alistFind st.voice_cache description with
  | some v => (some v, st)
  | none =>
    let st := { st with creations := st.creations + 1 }
    match collab description with
    | some vid =>
      (some vid, { st with voice_cache := (description, vid) :: st.voice_cache })
    | none => (none, st)

/-- `VoiceGenerator._get_or_create_voice_for_character` (lines 125-164):
session map, then the handle embedded in traits, then the process-wide cache,
then creation (or the gender fallback when the client is unavailable or the
creation fails).  Returns the handle, the new generator state and the new
session map. -/
def get_or_create_voice_for_character (collab : String → Option String)
    (client : Bool) (st : VoiceGenState) (character : String) (traits : Traits)
    (emotion : String) (sessionMap : List (String × String)) :
    Option String × VoiceGenState × List (String × String) :=
  match alistFind sessionMap character with
  | some v => (some v, st, sessionMap)
  | none =>
    if traits.elevenlabs_voice_id != "" then
      (some traits.elevenlabs_voice_id, st,
        (character, traits.elevenlabs_voice_id) :: sessionMap)
    else
      match alistFind st.voice_cache character with
      | some vid => (some vid, st, (character, vid) :: sessionMap)
      | none =>
        if !client then
          (some (get_fallback_voice_id traits), st, sessionMap)
        else
          let description := build_voice_description traits emotion
          let res := create_voice_from_description collab st description
          match res.1 with
          | some vid =>
            (some vid,
              { res.2 with voice_cache := (character, vid) :: res.2.voice_cache },
              (character, vid) :: sessionMap)
          | none => (some (get_fallback_voice_id traits), res.2, sessionMap)

/-- N successive calls of the registry resolve operation with identical
arguments inside one session, threading the generator state and the
session-local map. -/
def resolveN (collab : String → Option String) (client : Bool)
    (character : String) (traits : Traits) (emotion : String) :
    Nat → VoiceGenState → List (String × String) →
      List (Option String) × VoiceGenState × List (String × String)
  | 0, st, s => ([], st, s)
  | n + 1, st, s =>
    let r := get_or_create_voice_for_character collab client st character
      traits emotion s
    let rest := resolveN collab client character traits emotion n r.2.1 r.2.2
    (r.1 :: rest.1, rest.2.1, rest.2.2)

theorem alistFind_cons_self (m : List (String × String)) (k v : String) :
    alistFind ((k, v) :: m) k = some v := by
  simp [alistFind]

/-- A session-map hit returns the cached handle and changes nothing. -/
theorem resolve_session_hit (collab : String → Option String) (client : Bool)
    (st : VoiceGenState) (character : String) (traits : Traits)
    (emotion : String) (s : List (String × String)) (v : String)
    (hs : alistFind s character = some v) :
    get_or_create_voice_for_character collab client st character traits emotion
      s = (some v, st, s) := by
  simp [get_or_create_voice_for_character, hs]

/-- When the collaborator succeeds on the description in use, resolving a
second time with identical arguments returns the same handle and leaves the
generator state and session map untouched. -/
theorem resolve_idempotent (collab : String → Option String) (client : Bool)
    (st : VoiceGenState) (character : String) (traits : Traits)
    (emotion : String) (s : List (String × String))
    (hc : collab (build_voice_description traits emotion) ≠ none) :
    get_or_create_voice_for_character collab client
        (get_or_create_voice_for_character collab client st character traits
          emotion s).2.1
        character traits emotion
        (get_or_create_voice_for_character collab client st character traits
          emotion s).2.2 =
      get_or_create_voice_for_character collab client st character traits
        emotion s := by
  cases hs : alistFind s character with
  | some v =>
    rw [resolve_session_hit collab client st character traits emotion s v hs]
    exact resolve_session_hit collab client st character traits emotion s v hs
  | none =>
    by_cases ht : traits.elevenlabs_voice_id = ""
    · cases hg : alistFind st.voice_cache character with
      | some vid =>
        have h1 : get_or_create_voice_for_character collab client st character
            traits emotion s = (some vid, st, (character, vid) :: s) := by
          simp [get_or_create_voice_for_character, hs, ht, hg]
        rw [h1]
        exact resolve_session_hit collab client st character traits emotion
          ((character, vid) :: s) vid (alistFind_cons_self s character vid)
      | none =>
        cases client with
        | false =>
          have h1 : get_or_create_voice_for_character collab false st character
              traits emotion s =
              (some (get_fallback_voice_id traits), st, s) := by
            simp [get_or_create_voice_for_character, hs, ht, hg]
          rw [h1]
          exact h1
        | true =>
          obtain ⟨v, hv⟩ : ∃ v,
              collab (build_voice_description traits emotion) = some v := by
            cases hcol : collab (build_voice_description traits emotion) with
            | none => exact absurd hcol hc
            | some v => exact ⟨v, rfl⟩
          cases hdesc : alistFind st.voice_cache
              (build_voice_description traits emotion) with
          | some dv =>
            have h1 : get_or_create_voice_for_character collab true st
                character traits emotion s =
                (some dv,
                  { st with voice_cache := (character, dv) :: st.voice_cache },
                  (character, dv) :: s) := by
              simp [get_or_create_voice_for_character, hs, ht, hg,
                create_voice_from_description, hdesc]
            rw [h1]
            exact resolve_session_hit collab true _ character traits emotion
              ((character, dv) :: s) dv (alistFind_cons_self s character dv)
          | none =>
            have h1 : get_or_create_voice_for_character collab true st
                character traits emotion s =
                (some v,
                  { voice_cache := (character, v) ::
                      (build_voice_description traits emotion, v) ::
                        st.voice_cache,
                    creations := st.creations + 1 },
                  (character, v) :: s) := by
              simp [get_or_create_voice_for_character, hs, ht, hg,
                create_voice_from_description, hdesc, hv]
            rw [h1]
            exact resolve_session_hit collab true _ character traits emotion
              ((character, v) :: s) v (alistFind_cons_self s character v)
    · have h1 : get_or_create_voice_for_character collab client st character
          traits emotion s =
          (some traits.elevenlabs_voice_id, st,
            (character, traits.elevenlabs_voice_id) :: s) := by
        simp [get_or_create_voice_for_character, hs, ht]
      rw [h1]
      exact resolve_session_hit collab client st character traits emotion
        ((character, traits.elevenlabs_voice_id) :: s)
        traits.elevenlabs_voice_id
        (alistFind_cons_self s character traits.elevenlabs_voice_id)

/-- One resolve call issues at most one creation request. -/
theorem resolve_creations_le (collab : String → Option String) (client : Bool)
    (st : VoiceGenState) (character : String) (traits : Traits)
    (emotion : String) (s : List (String × String)) :
    (get_or_create_voice_for_character collab client st character traits
      emotion s).2.1.creations ≤ st.creations + 1 := by
  cases hs : alistFind s character with
  | some v => simp [get_or_create_voice_for_character, hs]
  | none =>
    by_cases ht : traits.elevenlabs_voice_id = ""
    · cases hg : alistFind st.voice_cache character with
      | some vid => simp [get_or_create_voice_for_character, hs, ht, hg]
      | none =>
        cases client with
        | false => simp [get_or_create_voice_for_character, hs, ht, hg]
        | true =>
          cases hdesc : alistFind st.voice_cache
              (build_voice_description traits emotion) with
          | some dv =>
            simp [get_or_create_voice_for_character, hs, ht, hg,
              create_voice_from_description, hdesc]
          | none =>
            cases hv : collab (build_voice_description traits emotion) with
            | some v =>
              simp [get_or_create_voice_for_character, hs, ht, hg,
                create_voice_from_description, hdesc, hv]
            | none =>
              simp [get_or_create_voice_for_character, hs, ht, hg,
                create_voice_from_description, hdesc, hv]
    · simp [get_or_create_voice_for_character, hs, ht]

/-- After the first resolve call, all later identical calls replay its result
without touching the state (collaborator success assumed). -/
theorem resolveN_after_first (collab : String → Option String) (client : Bool)
    (character : String) (traits : Traits) (emotion : String)
    (hc : collab (build_voice_description traits emotion) ≠ none) :
    ∀ (n : Nat) (st : VoiceGenState) (s : List (String × String)),
      resolveN collab client character traits emotion n
          (get_or_create_voice_for_character collab client st character traits
            emotion s).2.1
          (get_or_create_voice_for_character collab client st character traits
            emotion s).2.2 =
        (List.replicate n (get_or_create_voice_for_character collab client st
            character traits emotion s).1,
          (get_or_create_voice_for_character collab client st character traits
            emotion s).2.1,
          (get_or_create_voice_for_character collab client st character traits
            emotion s).2.2) := by
  intro n
  induction n with
  | zero => intro st s; simp [resolveN]
  | succ m ih =>
    intro st s
    have hid := resolve_idempotent collab client st character traits emotion s
      hc
    simp only [resolveN, hid]
    rw [ih st s]
    simp [List.replicate]

/-- C6 (counterexample): with a failing collaborator (every creation attempt
errors), two resolve calls with identical arguments in one fresh session issue
two creation requests, not at most one — failures are never cached, so each
call retries the creation. -/
theorem c6_counterexample :
    (resolveN (fun _ => none) true "Mira" {} "neutral" 2 {} []).2.1.creations =
        2 ∧
      ∀ x ∈ (resolveN (fun _ => none) true "Mira" {} "neutral" 2 {} []).1,
        x = some (get_fallback_voice_id {}) := by
  constructor
  · rfl
  · decide

/-- C6 (amended): when the creation succeeds (and on every path that does not
reach a failing collaborator), N resolve calls with identical arguments in one
session issue at most one creation request and all N returned handles equal
the first one; only a collaborator failure makes later calls retry. -/
theorem c6_amended_idempotent_on_success (collab : String → Option String)
    (client : Bool) (st : VoiceGenState) (character : String) (traits : Traits)
    (emotion : String) (s : List (String × String)) (N : Nat)
    (hc : collab (build_voice_description traits emotion) ≠ none) :
    ((resolveN collab client character traits emotion N st s).2.1.creations ≤
        st.creations + 1) ∧
      ∀ x ∈ (resolveN collab client character traits emotion N st s).1,
        x = (get_or_create_voice_for_character collab client st character
          traits emotion s).1 := by
  cases N with
  | zero =>
    constructor
    · simp [resolveN]
    · simp [resolveN]
  | succ m =>
    have h := resolveN_after_first collab client character traits emotion hc m
      st s
    constructor
    · simp only [resolveN, h]
      exact resolve_creations_le collab client st character traits emotion s
    · simp only [resolveN, h]
      intro x hx
      rcases List.mem_cons.mp hx with h1 | h1
    
      · exact h1
      · exact List.eq_of_mem_replicate h1

/-- Witness for C6 (amended) at a concrete successful collaborator. -/
theorem c6_amended_idempotent_on_success_witness :
    ((resolveN (fun _ => some "v1") true "Mira" {} "neutral" 3 {}
        []).2.1.creations ≤ VoiceGenState.creations {} + 1) ∧
      ∀ x ∈ (resolveN (fun _ => some "v1") true "Mira" {} "neutral" 3 {} []).1,
        x = (get_or_create_voice_for_character (fun _ => some "v1") true {}
          "Mira" {} "neutral" []).1 :=
  c6_amended_idempotent_on_success (fun _ => some "v1") true {} "Mira" {}
    "neutral" [] 3 (by decide)

/-- Client state of the HTML preview player (`_create_html_preview`, JS inside
the template, scene_renderer.py lines 1198-1277).  `timers` holds the ids of
all live (pending) timeouts; `sceneTimer` is the JS variable holding the most
recently armed handle (it may dangle after a fire or an overwrite);
`nextTimerId` supplies fresh handles. -/
structure PlayerState where
  currentBlock : Nat := 0
  isPlaying : Bool := false
  timers : List Nat := []
  sceneTimer : Option Nat := none
  nextTimerId : Nat := 0
  deriving Repr, DecidableEq

/-- `pauseScene()`: stop playing; cancel the tracked timeout (cancelling a
handle that already fired or was overwritten is a no-op, as in JS). -/
def pauseScene (st : PlayerState) : PlayerState :=
  match st.sceneTimer with
  | some t =>
    { st with
        isPlaying := false
        timers := st.timers.erase t
        sceneTimer := none }
  | none => { st with isPlaying := false }

/-- `playCurrentBlock()` for a scene of `n` blocks: past the end it pauses;
otherwise, when auto-playing, a fresh timeout is armed and its handle
overwrites `sceneTimer` without cancelling any previously armed timeout. -/
def playCurrentBlock (n : Nat) (st : PlayerState) : PlayerState :=
  if st.currentBlock ≥ n then pauseScene st
  else if st.isPlaying then
    { st with
        timers := st.timers ++ [st.nextTimerId]
        sceneTimer := some st.nextTimerId
        nextTimerId := st.nextTimerId + 1 }
  else st

/-- `startScene()`. -/
def startScene (n : Nat) (st : PlayerState) : PlayerState :=
  playCurrentBlock n { st with isPlaying := true }

/-- `resetScene()` (display and progress updates are not modelled). -/
def resetScene (st : PlayerState) : PlayerState :=
  { pauseScene st with currentBlock := 0 }

/-- `nextBlock()`: manual advance; note the source performs no cancellation
before `playCurrentBlock()` re-arms. -/
def nextBlock (n : Nat) (st : PlayerState) : PlayerState :=
  if st.currentBlock < n - 1 then
    playCurrentBlock n { st with currentBlock := st.currentBlock + 1 }
  else st

/-- A pending timeout fires: it leaves the live set and its callback advances
one block and replays (which may arm a successor). -/
def fireTimer (n : Nat) (t : Nat) (st : PlayerState) : PlayerState :=
  if t ∈ st.timers then
    playCurrentBlock n
      { st with
          timers := st.timers.erase t
          currentBlock := st.currentBlock + 1 }
  else st

/-- The user/timer events the player reacts to. -/
inductive PlayerEvent where
  | start
  | pause
  | reset
  | next
  | fire (t : Nat)
  deriving Repr, DecidableEq

/-- One transition of the player state machine. -/
def playerStep (n : Nat) (st : PlayerState) : PlayerEvent → PlayerState
  | .start => startScene n st
  | .pause => pauseScene st
  | .reset => resetScene st
  | .next => nextBlock n st
  | .fire t => fireTimer n t st

/-- A run of the player from its initial (page-load) state. -/
def playerRun (n : Nat) (events : List PlayerEvent) : PlayerState :=
  events.foldl (playerStep n) {}

/-- The single-timer invariant: no live timeout, or exactly one and it is the
one the `sceneTimer` variable tracks. -/
def timerInv (st : PlayerState) : Prop :=
  st.timers = [] ∨ ∃ t, st.timers = [t] ∧ st.sceneTimer = some t

/-- A discipline on events: `start` and manual `next` are only issued while no
timeout is pending (pause, reset and timer fires are always allowed). -/
def guarded (st : PlayerState) : PlayerEvent → Bool
  | .start => st.timers.isEmpty
  | .next => st.timers.isEmpty
  | _ => true

/-- The whole event list obeys the discipline along the run. -/
def guardedFrom (n : Nat) : PlayerState → List PlayerEvent → Bool
  | _, [] => true
  | st, e :: es => guarded st e && guardedFrom n (playerStep n st e) es

theorem pauseScene_timers_nil (st : PlayerState) (h : timerInv st) :
    (pauseScene st).timers = [] := by
  rcases h with h | ⟨t, ht, hs⟩
  · cases hsc : st.sceneTimer <;> simp [pauseScene, hsc, h]
  · simp [pauseScene, hs, ht]

theorem playCurrentBlock_inv (n : Nat) (st : PlayerState)
    (h : st.timers = []) : timerInv (playCurrentBlock n st) := by
  unfold playCurrentBlock
  by_cases h1 : st.currentBlock ≥ n
  · simp only [h1, if_true]
    exact Or.inl (pauseScene_timers_nil st (Or.inl h))
  · simp only [h1, if_false]
    by_cases h2 : st.isPlaying
    · simp only [h2, if_true]
      exact Or.inr ⟨st.nextTimerId, by simp [h], rfl⟩
    · simp only [h2, if_false]
      exact Or.inl h

theorem playerStep_inv (n : Nat) (st : PlayerState) (e : PlayerEvent)
    (hinv : timerInv st) (hg : guarded st e = true) :
    timerInv (playerStep n st e) := by
  cases e with
  | start =>
    have h : st.timers = [] := by simpa [guarded, List.isEmpty_iff] using hg
    exact playCurrentBlock_inv n _ (by simpa using h)
  | pause => exact Or.inl (pauseScene_timers_nil st hinv)
  | reset =>
    have h := pauseScene_timers_nil st hinv
    exact Or.inl (by simpa [resetScene] using h)
  | next =>
    have h : st.timers = [] := by simpa [guarded, List.isEmpty_iff] using hg
    unfold playerStep nextBlock
    by_cases h1 : st.currentBlock < n - 1
    · simp only [h1, if_true]
      exact playCurrentBlock_inv n _ (by simpa using h)
    · simp only [h1, if_false]
      exact hinv
  | fire t =>
    unfold playerStep fireTimer
    by_cases h1 : t ∈ st.timers
    · rcases hinv with h | ⟨t', ht', hs⟩
      · rw [h] at h1; simp at h1
      · have heq : t = t' := by rw [ht'] at h1; simpa using h1
        subst heq
        simp only [h1, if_true]
        exact playCurrentBlock_inv n _ (by simp [ht'])
    · simp only [h1, if_false]
      exact hinv

theorem guardedRun_inv (n : Nat) :
    ∀ (events : List PlayerEvent) (st : PlayerState), timerInv st →
      guardedFrom n st events = true →
      timerInv (events.foldl (playerStep n) st) := by
  intro events
  induction events with
  | nil => intro st h _; simpa using h
  | cons e es ih =>
    intro st h hg
    have hg' : guarded st e = true ∧
        guardedFrom n (playerStep n st e) es = true := by
      simpa [guardedFrom, Bool.and_eq_true] using hg
    rcases hg' with ⟨hg1, hg2⟩
    exact ih (playerStep n st e) (playerStep_inv n st e h hg1) hg2

/-- C7 (counterexample): from the initial state, pressing start and then the
manual next button leaves two live auto-advance timeouts (the manual advance
re-arms without cancelling the pending timeout), so the player does not keep
at most one pending timer. -/
theorem c7_counterexample :
    (playerRun 3 [PlayerEvent.start, PlayerEvent.next]).timers.length = 2 := by
  rfl

/-- C7 (amended): pause and reset do cancel the pending timeout, and the
auto-advance path replaces the timer it consumed, so along runs in which
`start` and manual `next` are only issued while no timeout is pending, at most
one timeout is ever live; only a manual advance (or a second start) during
auto-play creates a second live timeout. -/
theorem c7_amended_single_timer_when_guarded (n : Nat)
    (events : List PlayerEvent) (hg : guardedFrom n {} events = true) :
    (playerRun n events).timers.length ≤ 1 := by
  have h := guardedRun_inv n events {} (Or.inl rfl) hg
  rcases h with h | ⟨t, ht, _⟩
  · simp [playerRun] at h ⊢
    simp [h]
  · simp [playerRun] at ht ⊢
    simp [ht]

/-- Witness for C7 (amended): a guarded run with a start, a timer fire, a
pause and a restart. -/
theorem c7_amended_single_timer_when_guarded_witness :
    (playerRun 3 [PlayerEvent.start, PlayerEvent.fire 0, PlayerEvent.pause,
      PlayerEvent.start]).timers.length ≤ 1 :=
  c7_amended_single_timer_when_guarded 3
    [PlayerEvent.start, PlayerEvent.fire 0, PlayerEvent.pause,
      PlayerEvent.start] (by rfl)

/-- Contents of a file the provisioner can write. -/
inductive FileData where
  | placeholderMp3
  | textFile (content : String)
  | audioBytes (n : Nat)
  deriving Repr, DecidableEq

/-- The on-disk state: an association list from paths to contents; a cons at
the head shadows (overwrites) an older entry, as a rewrite of the same path. -/
abbrev FS := List (String × FileData)

/-- `os.path.exists` / reading a file. -/
def fsFind (fs : FS) (p : String) : Option FileData :=
  match fs.find? (fun q => q.1 == p) with
  | some q => some q.2
  | none => none

/-- Byte size of a file; the placeholder is the fixed 16-byte header plus the
1024 bytes of padding the source writes (lines 277-290). -/
def fileSize : FileData → Nat
  | FileData.placeholderMp3 => 1040
  | FileData.textFile content => content.length
  | FileData.audioBytes n => n

/-- The sidecar content `_create_mp3_file` writes (lines 292-297). -/
def metadataContent (character text block_id audio_filename : String) :
    String :=
  "Character: " ++ character ++ "\n" ++ "Text: " ++ text ++ "\n" ++
    "Block ID: " ++ block_id ++ "\n" ++ "Audio File: " ++ audio_filename ++ "\n"

/-- Python `str.replace(pat, rep)` (all occurrences), with fuel for structural
recursion; one character is consumed per step so the length suffices. -/
def replaceAllAux (pat rep : List Char) : Nat → List Char → List Char
  | 0, l => l
  | fuel + 1, l =>
    match l with
    | [] => []
    | c :: cs =>
      if !pat.isEmpty && pat.isPrefixOf (c :: cs) then
        rep ++ replaceAllAux pat rep fuel ((c :: cs).drop pat.length)
      else c :: replaceAllAux pat rep fuel cs

/-- Python `s.replace(pat, rep)`. -/
def replaceAll (pat rep s : String) : String :=
  String.mk (replaceAllAux pat.data rep.data s.data.length s.data)

/-- `VoiceGenerator._create_mp3_file` (lines 269-300) over the modelled file
system.  `writeOk` is the I/O oracle; `false` models `open`/`write` raising,
which the function does not catch, so the error escapes with the files written
so far. -/
def create_mp3_file (writeOk : String → Bool)
    (text character block_id audioDir audio_filename : String) (fs : FS) :
    Except FS (String × FS) :=
  let audio_path := audioDir ++ "/" ++ audio_filename
  if !writeOk audio_path then Except.error fs
  else
    let fs := (audio_path, FileData.placeholderMp3) :: fs
    let metadata_path := replaceAll ".mp3" "_metadata.txt" audio_path
    if !writeOk metadata_path then Except.error fs
    else
      Except.ok (audio_path,
        (metadata_path, FileData.textFile
          (metadataContent character text block_id audio_filename)) :: fs)

/-- `VoiceGenerator._generate_audio_with_elevenlabs` (lines 222-256): `synth`
models the whole guarded attempt; a missing key, an HTTP error, a bad status
or a write error all yield `none` (the source catches everything and returns
`None`), while success writes the response bytes at the output path. -/
def generate_audio_with_elevenlabs (synth : String → String → Option Nat)
    (text voice_id output_path : String) (fs : FS) : Option String × FS :=
  match synth text voice_id with
  | some n => (some output_path, (output_path, FileData.audioBytes n) :: fs)
  | none => (none, fs)

/-- `block.get("id", "unknown")`. -/
def blockIdOf (b : Block) : String := if b.id = "" then "unknown" else b.id

/-- `block.get("character", "Unknown")`. -/
def characterOf (b : Block) : String :=
  if b.character = "" then "Unknown" else b.character

/-- `f"{character}_{block_id}.mp3"`. -/
def audioFilenameOf (b : Block) : String :=
  characterOf b ++ "_" ++ blockIdOf b ++ ".mp3"

/-- `os.path.join(audio_dir, audio_filename)`. -/
def audioPathOf (audioDir : String) (b : Block) : String :=
  audioDir ++ "/" ++ audioFilenameOf b

/-- The sidecar path `_create_mp3_file` derives from the audio path. -/
def metaPathOf (audioDir : String) (b : Block) : String :=
  replaceAll ".mp3" "_metadata.txt" (audioPathOf audioDir b)

/-- A dialogue block whose text survives `text.strip()`. -/
def eligB (b : Block) : Bool :=
  b.type == "dialogue" && !(b.text.data.all (fun c => c.isWhitespace))

/-- The main loop of `VoiceGenerator.generate_voices` (lines 59-117): skip
non-dialogue and whitespace-only blocks, reuse an existing file at the
deterministic path, otherwise resolve a voice and synthesize, falling back to
the placeholder writer; a write exception escapes (carrying the state and the
files of the partial run). -/
def generate_voices_go (collab : String → Option String) (client : Bool)
    (synth : String → String → Option Nat) (writeOk : String → Bool)
    (audioDir : String) :
    List Block → List (String × String) → VoiceGenState →
      List (String × String) → FS →
      Except (VoiceGenState × FS)
        (List (String × String) × VoiceGenState × FS)
  | [], _, st, acc, fs => Except.ok (acc, st, fs)
  | b :: rest, session, st, acc, fs =>
    if b.type != "dialogue" then
      generate_voices_go collab client synth writeOk audioDir rest session st
        acc fs
    else if b.text.data.all (fun c => c.isWhitespace) then
      generate_voices_go collab client synth writeOk audioDir rest session st
        acc fs
    else
      if (fsFind fs (audioPathOf audioDir b)).isSome then
        generate_voices_go collab client synth writeOk audioDir rest session st
          ((blockIdOf b, audioPathOf audioDir b) :: acc) fs
      else
        let r := get_or_create_voice_for_character collab client st
          (characterOf b) b.traits
          (if b.emotion = "" then "neutral" else b.emotion) session
        match r.1 with
        | some voice_id =>
          let g := generate_audio_with_elevenlabs synth b.text voice_id
            (audioPathOf audioDir b) fs
          match g.1 with
          | some p =>
            generate_voices_go collab client synth writeOk audioDir rest r.2.2
              r.2.1 ((blockIdOf b, p) :: acc) g.2
          | none =>
            match create_mp3_file writeOk b.text (characterOf b) (blockIdOf b)
                audioDir (audioFilenameOf b) g.2 with
            | Except.error fs2 => Except.error (r.2.1, fs2)
            | Except.ok pfs =>
              generate_voices_go collab client synth writeOk audioDir rest
                r.2.2 r.2.1 ((blockIdOf b, pfs.1) :: acc) pfs.2
        | none =>
          match create_mp3_file writeOk b.text (characterOf b) (blockIdOf b)
              audioDir (audioFilenameOf b) fs with
          | Except.error fs2 => Except.error (r.2.1, fs2)
          | Except.ok pfs =>
            generate_voices_go collab client synth writeOk audioDir rest r.2.2
              r.2.1 ((blockIdOf b, pfs.1) :: acc) pfs.2

/-- `VoiceGenerator.generate_voices`: run the loop with a fresh session map;
the top-level `except` (lines 121-123) turns any escaped exception into an
empty result map, keeping whatever files the partial run already wrote. -/
def generate_voices (collab : String → Option String) (client : Bool)
    (synth : String → String → Option Nat) (writeOk : String → Bool)
    (audioDir : String) (script : List Block) (st : VoiceGenState) (fs : FS) :
    List (String × String) × VoiceGenState × FS :=
  match generate_voices_go collab client synth writeOk audioDir script [] st []
      fs with
  | Except.ok r => r
  | Except.error e => ([], e.1, e.2)

/-- Step 2 of `app.generate_full_scene` (app.py lines 205-208): the script
value flows to the renderer unchanged; the voice stage only returns the
separate audio map (its docstring: does not modify the script data). -/
def voiceStage (collab : String → Option String) (client : Bool)
    (synth : String → String → Option Nat) (writeOk : String → Bool)
    (audioDir : String) (script : List Block) (st : VoiceGenState) (fs : FS) :
    List Block × (List (String × String) × VoiceGenState × FS) :=
  (script, generate_voices collab client synth writeOk audioDir script st fs)

theorem fsFind_cons_self (fs : FS) (p : String) (d : FileData) :
    fsFind ((p, d) :: fs) p = some d := by
  simp [fsFind]

theorem fsFind_cons_ne (fs : FS) (p q : String) (d : FileData) (h : p ≠ q) :
    fsFind ((p, d) :: fs) q = fsFind fs q := by
  simp [fsFind, List.find?_cons, h]

theorem fsFind_isSome_cons (fs : FS) (p q : String) (d : FileData)
    (h : (fsFind fs q).isSome = true) :
    (fsFind ((p, d) :: fs) q).isSome = true := by
  by_cases hpq : p = q
  · subst hpq; simp [fsFind_cons_self]
  · rw [fsFind_cons_ne fs p q d hpq]; exact h

/-- Lifting the per-tail facts of the ok-spec through a processed dialogue
block whose entry was added to the accumulator. -/
theorem go_spec_lift_entry (b : Block) (rest : List Block)
    (acc m : List (String × String)) (p : String) (hty : b.type = "dialogue")
    (hmono : ∀ x ∈ (blockIdOf b, p) :: acc, x ∈ m)
    (hrest2 : ∀ b' ∈ rest, eligB b' = true → ∃ q, (blockIdOf b', q) ∈ m)
    (hrest3 : ∀ e ∈ m, e ∈ (blockIdOf b, p) :: acc ∨
      ∃ b', b' ∈ rest ∧ b'.type = "dialogue" ∧ e.1 = blockIdOf b') :
    (∀ x ∈ acc, x ∈ m) ∧
      (∀ b' ∈ b :: rest, eligB b' = true → ∃ q, (blockIdOf b', q) ∈ m) ∧
      (∀ e ∈ m, e ∈ acc ∨ ∃ b', b' ∈ b :: rest ∧ b'.type = "dialogue" ∧
        e.1 = blockIdOf b') := by
  refine ⟨fun x hx => hmono x (List.mem_cons_of_mem _ hx), ?_, ?_⟩
  · intro b' hb' he
    rcases List.mem_cons.mp hb' with rfl | hb'
    · exact ⟨p, hmono _ (List.mem_cons_self _ _)⟩
    · exact hrest2 b' hb' he
  · intro e he
    rcases hrest3 e he with h1 | ⟨b', hb', hb'd, hb'k⟩
    · rcases List.mem_cons.mp h1 with rfl | h1
      · exact Or.inr ⟨b, List.mem_cons_self _ _, hty, rfl⟩
      · exact Or.inl h1
    · exact Or.inr ⟨b', List.mem_cons_of_mem _ hb', hb'd, hb'k⟩

/-- Lifting the per-tail facts of the ok-spec through a skipped block. -/
theorem go_spec_lift_skip (b : Block) (rest : List Block)
    (acc m : List (String × String)) (hne : eligB b = false)
    (h1 : ∀ x ∈ acc, x ∈ m)
    (h2 : ∀ b' ∈ rest, eligB b' = true → ∃ q, (blockIdOf b', q) ∈ m)
    (h3 : ∀ e ∈ m, e ∈ acc ∨ ∃ b', b' ∈ rest ∧ b'.type = "dialogue" ∧
      e.1 = blockIdOf b') :
    (∀ x ∈ acc, x ∈ m) ∧
      (∀ b' ∈ b :: rest, eligB b' = true → ∃ q, (blockIdOf b', q) ∈ m) ∧
      (∀ e ∈ m, e ∈ acc ∨ ∃ b', b' ∈ b :: rest ∧ b'.type = "dialogue" ∧
        e.1 = blockIdOf b') := by
  refine ⟨h1, ?_, ?_⟩
  · intro b' hb' he
    rcases List.mem_cons.mp hb' with rfl | hb'
    · rw [hne] at he; cases he
    · exact h2 b' hb' he
  · intro e he
    rcases h3 e he with h | ⟨b', hb', hb'd, hb'k⟩
    · exact Or.inl h
    · exact Or.inr ⟨b', List.mem_cons_of_mem _ hb', hb'd, hb'k⟩

/-- Structural facts about a successful run of the provisioning loop: the
accumulator only grows, every eligible block ends up with an entry, and every
entry is either inherited or keyed by the id of some dialogue block. -/
theorem generate_voices_go_ok_spec (collab : String → Option String)
    (client : Bool) (synth : String → String → Option Nat)
    (writeOk : String → Bool) (audioDir : String) :
    ∀ (blocks : List Block) (session : List (String × String))
      (st : VoiceGenState) (acc : List (String × String)) (fs : FS)
      (m : List (String × String)) (st' : VoiceGenState) (fs' : FS),
      generate_voices_go collab client synth writeOk audioDir blocks session st
          acc fs = Except.ok (m, st', fs') →
      (∀ x ∈ acc, x ∈ m) ∧
        (∀ b ∈ blocks, eligB b = true → ∃ p, (blockIdOf b, p) ∈ m) ∧
        (∀ e ∈ m, e ∈ acc ∨ ∃ b, b ∈ blocks ∧ b.type = "dialogue" ∧
          e.1 = blockIdOf b) := by
  intro blocks
  induction blocks with
  | nil =>
    intro session st acc fs m st' fs' h
    simp only [generate_voices_go, Except.ok.injEq, Prod.mk.injEq] at h
    obtain ⟨rfl, -, -⟩ := h
    exact ⟨fun x hx => hx, by simp, fun e he => Or.inl he⟩
  | cons b rest ih =>
    intro session st acc fs m st' fs' h
    rw [generate_voices_go] at h
    by_cases hd : (b.type != "dialogue") = true
    · rw [if_pos hd] at h
      have hne : eligB b = false := by
        simp [eligB]
        intro hcontra
        simp [hcontra] at hd
      obtain ⟨h1, h2, h3⟩ := ih _ _ _ _ _ _ _ h
      exact go_spec_lift_skip b rest acc m hne h1 h2 h3
    · rw [if_neg hd] at h
      have hty : b.type = "dialogue" := by
        simpa using hd
      by_cases hw : (b.text.data.all (fun c => c.isWhitespace)) = true
      · rw [if_pos hw] at h
        have hne : eligB b = false := by simp [eligB, hw]
        obtain ⟨h1, h2, h3⟩ := ih _ _ _ _ _ _ _ h
        exact go_spec_lift_skip b rest acc m hne h1 h2 h3
      · rw [if_neg hw] at h
        by_cases hex : (fsFind fs (audioPathOf audioDir b)).isSome = true
        · rw [if_pos hex] at h
          obtain ⟨h1, h2, h3⟩ := ih _ _ _ _ _ _ _ h
          exact go_spec_lift_entry b rest acc m _ hty h1 h2 h3
        · rw [if_neg hex] at h
          simp only at h
          cases hr : (get_or_create_voice_for_character collab client st
              (characterOf b) b.traits
              (if b.emotion = "" then "neutral" else b.emotion) session).1 with
          | some voice_id =>
            rw [hr] at h
            dsimp only at h
            cases hg : (generate_audio_with_elevenlabs synth b.text voice_id
                (audioPathOf audioDir b) fs).1 with
            | some p =>
              rw [hg] at h
              dsimp only at h
              obtain ⟨h1, h2, h3⟩ := ih _ _ _ _ _ _ _ h
              exact go_spec_lift_entry b rest acc m _ hty h1 h2 h3
            | none =>
              rw [hg] at h
              dsimp only at h
              cases hc : create_mp3_file writeOk b.text (characterOf b)
                  (blockIdOf b) audioDir (audioFilenameOf b)
                  (generate_audio_with_elevenlabs synth b.text voice_id
                    (audioPathOf audioDir b) fs).2 with
              | error fs2 => rw [hc] at h; cases h
              | ok pfs =>
                rw [hc] at h
                dsimp only at h
                obtain ⟨h1, h2, h3⟩ := ih _ _ _ _ _ _ _ h
                exact go_spec_lift_entry b rest acc m _ hty h1 h2 h3
          | none =>
            rw [hr] at h
            dsimp only at h
            cases hc : create_mp3_file writeOk b.text (characterOf b)
                (blockIdOf b) audioDir (audioFilenameOf b) fs with
            | error fs2 => rw [hc] at h; cases h
            | ok pfs =>
              rw [hc] at h
              dsimp only at h
              obtain ⟨h1, h2, h3⟩ := ih _ _ _ _ _ _ _ h
              exact go_spec_lift_entry b rest acc m _ hty h1 h2 h3

/-- C9 (counterexample): with a file-write failure at the second dialogue
block, the whole provisioning aborts: the returned audio map is empty (the
first block's entry is discarded), the third block is never provisioned, while
the first block's file does remain on disk. -/
theorem c9_counterexample :
    ((generate_voices (fun _ => none) false (fun _ _ => none)
        (fun p => p != "audio/B_d1.mp3") "audio"
        [dlg "d0" "A" "Hi", dlg "d1" "B" "Yo", dlg "d2" "C" "Hey"] {} []).1 =
        []) ∧
      fsFind (generate_voices (fun _ => none) false (fun _ _ => none)
        (fun p => p != "audio/B_d1.mp3") "audio"
        [dlg "d0" "A" "Hi", dlg "d1" "B" "Yo", dlg "d2" "C" "Hey"] {} []).2.2
        "audio/C_d2.mp3" = none ∧
      (fsFind (generate_voices (fun _ => none) false (fun _ _ => none)
        (fun p => p != "audio/B_d1.mp3") "audio"
        [dlg "d0" "A" "Hi", dlg "d1" "B" "Yo", dlg "d2" "C" "Hey"] {} []).2.2
        "audio/A_d0.mp3").isSome = true := by
  refine ⟨rfl, rfl, rfl⟩

/-- C9 (amended): provisioning is all-or-nothing with respect to single-file
failures: either the run completes and the returned map provisions every
eligible dialogue block, or the first write error aborts the loop, the
remaining blocks are skipped and the returned map is empty (files already
written remain on disk but are not reported). -/
theorem c9_amended_all_or_nothing (collab : String → Option String)
    (client : Bool) (synth : String → String → Option Nat)
    (writeOk : String → Bool) (audioDir : String) (script : List Block)
    (st : VoiceGenState) (fs : FS) :
    (generate_voices collab client synth writeOk audioDir script st fs).1 = []
      ∨ ∀ b ∈ script, eligB b = true →
          ∃ p, (blockIdOf b, p) ∈
            (generate_voices collab client synth writeOk audioDir script st
              fs).1 := by
  cases hgo : generate_voices_go collab client synth writeOk audioDir script []
      st [] fs with
  | error e =>
    left
    simp [generate_voices, hgo]
  | ok r =>
    right
    obtain ⟨m, st2, fs2⟩ := r
    obtain ⟨-, h2, -⟩ := generate_voices_go_ok_spec collab client synth writeOk
      audioDir script [] st [] fs m st2 fs2 hgo
    intro b hb he
    obtain ⟨p, hp⟩ := h2 b hb he
    refine ⟨p, ?_⟩
    simpa [generate_voices, hgo] using hp

/-- C10 (counterexample): for a one-line script the voice stage produces an
audio file and records it in the separate map, but the dialogue block does not
carry an `audio` field set to that path (the claim, instantiated here, is
false: the field keeps its absent default). -/
theorem c10_counterexample :
    ¬ (∀ b ∈ (voiceStage (fun _ => none) false (fun _ _ => none)
          (fun _ => true) "audio" [dlg "d0" "Mira" "Hi"] {} []).1,
        ∀ p, (blockIdOf b, p) ∈ (voiceStage (fun _ => none) false
          (fun _ _ => none) (fun _ => true) "audio" [dlg "d0" "Mira" "Hi"] {}
            []).2.1 → b.audio = p) := by
  intro hclaim
  have hmem : (dlg "d0" "Mira" "Hi") ∈ (voiceStage (fun _ => none) false
      (fun _ _ => none) (fun _ => true) "audio" [dlg "d0" "Mira" "Hi"] {}
        []).1 := by
    decide
  have h := hclaim (dlg "d0" "Mira" "Hi") hmem "audio/Mira_d0.mp3" (by decide)
  exact absurd h (by decide)

/-- C10 (amended): the voice stage does not modify the script at all — no
block gains an `audio` field; the block-to-path association is returned as a
separate map, and every entry of that map is keyed by the id of some dialogue
block of the script. -/
theorem c10_amended_script_unmodified (collab : String → Option String)
    (client : Bool) (synth : String → String → Option Nat)
    (writeOk : String → Bool) (audioDir : String) (script : List Block)
    (st : VoiceGenState) (fs : FS) :
    (voiceStage collab client synth writeOk audioDir script st fs).1 =
        script ∧
      ∀ e ∈ (voiceStage collab client synth writeOk audioDir script st
          fs).2.1, ∃ b, b ∈ script ∧ b.type = "dialogue" ∧
            e.1 = blockIdOf b := by
  refine ⟨rfl, ?_⟩
  intro e he
  have he' : e ∈ (generate_voices collab client synth writeOk audioDir script
      st fs).1 := he
  cases hgo : generate_voices_go collab client synth writeOk audioDir script []
      st [] fs with
  | error err =>
    rw [show (generate_voices collab client synth writeOk audioDir script st
        fs).1 = [] by simp [generate_voices, hgo]] at he'
    cases he'
  | ok r =>
    obtain ⟨m, st2, fs2⟩ := r
    obtain ⟨-, -, h3⟩ := generate_voices_go_ok_spec collab client synth writeOk
      audioDir script [] st [] fs m st2 fs2 hgo
    have hem : e ∈ m := by
      simpa [generate_voices, hgo] using he'
    rcases h3 e hem with hin | hb
    · cases hin
    · exact hb

/-- Every file present in the store is non-empty. -/
def fsAllNonempty (fs : FS) : Prop :=
  ∀ p d, fsFind fs p = some d → 0 < fileSize d

/-- Whenever the deterministic audio path of an eligible script block is
present on disk, it holds the placeholder and its sidecar records the block's
character, original text and id. -/
def placeholderPolicy (script : List Block) (audioDir : String) (fs : FS) :
    Prop :=
  ∀ b ∈ script, eligB b = true →
    (fsFind fs (audioPathOf audioDir b)).isSome = true →
      fsFind fs (audioPathOf audioDir b) = some FileData.placeholderMp3 ∧
        fsFind fs (metaPathOf audioDir b) = some (FileData.textFile
          (metadataContent (characterOf b) b.text (blockIdOf b)
            (audioFilenameOf b)))

/-- The deterministic paths of the script's eligible blocks do not collide:
distinct blocks get distinct audio paths and distinct sidecar paths, and no
sidecar path equals any audio path. -/
def pathsInjective (script : List Block) (audioDir : String) : Prop :=
  (∀ b ∈ script, ∀ b' ∈ script, eligB b = true → eligB b' = true →
      audioPathOf audioDir b = audioPathOf audioDir b' → b = b') ∧
    (∀ b ∈ script, ∀ b' ∈ script, eligB b = true → eligB b' = true →
      metaPathOf audioDir b = metaPathOf audioDir b' → b = b') ∧
    (∀ b ∈ script, ∀ b' ∈ script, eligB b = true → eligB b' = true →
      metaPathOf audioDir b ≠ audioPathOf audioDir b')

theorem metadataContent_pos (c t i f : String) :
    0 < (metadataContent c t i f).length := by
  have h11 : ("Character: " : String).length = 11 := rfl
  unfold metadataContent
  simp [String.length_append, h11]

theorem fsAllNonempty_cons (fs : FS) (p : String) (d : FileData)
    (hd : 0 < fileSize d) (h : fsAllNonempty fs) :
    fsAllNonempty ((p, d) :: fs) := by
  intro q e hq
  by_cases hpq : p = q
  · subst hpq
    rw [fsFind_cons_self] at hq
    cases hq
    exact hd
  · rw [fsFind_cons_ne fs p q d hpq] at hq
    exact h q e hq

/-- Main invariant lemma for C8: with failing synthesis and reliable writes,
the provisioning loop completes, keeps every file non-empty, maintains the
placeholder policy, and provisions every eligible block it visits at its
deterministic path. -/
theorem generate_voices_go_c8_spec (collab : String → Option String)
    (client : Bool) (synth : String → String → Option Nat)
    (writeOk : String → Bool) (audioDir : String) (script : List Block)
    (hsynth : ∀ t v, synth t v = none) (hwrite : ∀ p, writeOk p = true)
    (hinj : pathsInjective script audioDir) :
    ∀ (blocks : List Block), (∀ b ∈ blocks, b ∈ script) →
      ∀ (session : List (String × String)) (st : VoiceGenState)
        (acc : List (String × String)) (fs : FS),
        fsAllNonempty fs → placeholderPolicy script audioDir fs →
        (∀ x ∈ acc, (fsFind fs x.2).isSome = true) →
        ∃ m st' fs',
          generate_voices_go collab client synth writeOk audioDir blocks
              session st acc fs = Except.ok (m, st', fs') ∧
            fsAllNonempty fs' ∧ placeholderPolicy script audioDir fs' ∧
            (∀ x ∈ acc, x ∈ m) ∧
            (∀ x ∈ m, (fsFind fs' x.2).isSome = true) ∧
            (∀ b ∈ blocks, eligB b = true →
              (blockIdOf b, audioPathOf audioDir b) ∈ m) := by
  intro blocks
  induction blocks with
  | nil =>
    intro _ session st acc fs hne hpol hacc
    exact ⟨acc, st, fs, rfl, hne, hpol, fun x hx => hx, hacc, by simp⟩
  | cons b rest ih =>
    intro hsub session st acc fs hne hpol hacc
    have hbscript : b ∈ script := hsub b (List.mem_cons_self b rest)
    have hsub' : ∀ x ∈ rest, x ∈ script :=
      fun x hx => hsub x (List.mem_cons_of_mem b hx)
    by_cases hd : (b.type != "dialogue") = true
    · obtain ⟨m, st', fs', heq, h1, h2, h3, h4, h5⟩ :=
        ih hsub' session st acc fs hne hpol hacc
      refine ⟨m, st', fs', ?_, h1, h2, h3, h4, ?_⟩
      · rw [generate_voices_go, if_pos hd]; exact heq
      · intro b' hb' he'
        rcases List.mem_cons.mp hb' with rfl | hb'
        · exfalso
          have hne' : b'.type ≠ "dialogue" := by simpa using hd
          have he2 := he'
          simp [eligB] at he2
          exact hne' he2.1
        · exact h5 b' hb' he'
    · have hty : b.type = "dialogue" := by simpa using hd
      by_cases hw : (b.text.data.all (fun c => c.isWhitespace)) = true
      · obtain ⟨m, st', fs', heq, h1, h2, h3, h4, h5⟩ :=
          ih hsub' session st acc fs hne hpol hacc
        refine ⟨m, st', fs', ?_, h1, h2, h3, h4, ?_⟩
        · rw [generate_voices_go, if_neg hd, if_pos hw]; exact heq
        · intro b' hb' he'
          rcases List.mem_cons.mp hb' with rfl | hb'
          · exfalso
            have he2 := he'
            simp [eligB] at he2
            obtain ⟨x, hx, hxw⟩ := he2.2
            have hall := List.all_eq_true.mp hw x hx
            simp [hxw] at hall
          · exact h5 b' hb' he'
      · have helig : eligB b = true := by simp [eligB, hty, hw]
        by_cases hex : (fsFind fs (audioPathOf audioDir b)).isSome = true
        · have hacc' : ∀ x ∈ (blockIdOf b, audioPathOf audioDir b) :: acc,
              (fsFind fs x.2).isSome = true := by
            intro x hx
            rcases List.mem_cons.mp hx with rfl | hx
            · exact hex
            · exact hacc x hx
          obtain ⟨m, st', fs', heq, h1, h2, h3, h4, h5⟩ :=
            ih hsub' session st ((blockIdOf b, audioPathOf audioDir b) :: acc)
              fs hne hpol hacc'
          refine ⟨m, st', fs', ?_, h1, h2,
            fun x hx => h3 x (List.mem_cons_of_mem _ hx), h4, ?_⟩
          · rw [generate_voices_go, if_neg hd, if_neg hw, if_pos hex]
            exact heq
          · intro b' hb' he'
            rcases List.mem_cons.mp hb' with rfl | hb'
            · exact h3 _ (List.mem_cons_self _ _)
            · exact h5 b' hb' he'
        · -- fresh path: the placeholder and the sidecar get written
          have hmxself : metaPathOf audioDir b ≠ audioPathOf audioDir b :=
            hinj.2.2 b hbscript b hbscript helig helig
          set fs2 : FS :=
            (metaPathOf audioDir b, FileData.textFile
              (metadataContent (characterOf b) b.text (blockIdOf b)
                (audioFilenameOf b))) ::
              (audioPathOf audioDir b, FileData.placeholderMp3) :: fs with hfs2
          have hne2 : fsAllNonempty fs2 := by
            refine fsAllNonempty_cons _ _ _ ?_ (fsAllNonempty_cons _ _ _ ?_ hne)
            · exact metadataContent_pos _ _ _ _
            · simp [fileSize]
          have hfind2_audio :
              fsFind fs2 (audioPathOf audioDir b) =
                some FileData.placeholderMp3 := by
            rw [hfs2, fsFind_cons_ne _ _ _ _ hmxself, fsFind_cons_self]
          have hfind2_meta :
              fsFind fs2 (metaPathOf audioDir b) = some (FileData.textFile
                (metadataContent (characterOf b) b.text (blockIdOf b)
                  (audioFilenameOf b))) := by
            rw [hfs2, fsFind_cons_self]
          have hpol2 : placeholderPolicy script audioDir fs2 := by
            intro b' hb' helig' hsome'
            by_cases hap : audioPathOf audioDir b' = audioPathOf audioDir b
            · have hbb : b' = b :=
                hinj.1 b' hb' b hbscript helig' helig hap
              subst hbb
              exact ⟨hfind2_audio, hfind2_meta⟩
            · have hmx1 : metaPathOf audioDir b ≠ audioPathOf audioDir b' :=
                hinj.2.2 b hbscript b' hb' helig helig'
              have hax : audioPathOf audioDir b ≠ audioPathOf audioDir b' :=
                fun hcontra => hap hcontra.symm
              have hfold : fsFind fs2 (audioPathOf audioDir b') =
                  fsFind fs (audioPathOf audioDir b') := by
                rw [hfs2, fsFind_cons_ne _ _ _ _ hmx1,
                  fsFind_cons_ne _ _ _ _ hax]
              have hsome0 : (fsFind fs (audioPathOf audioDir b')).isSome =
                  true := by rw [← hfold]; exact hsome'
              obtain ⟨hold1, hold2⟩ := hpol b' hb' helig' hsome0
              have hmm : metaPathOf audioDir b ≠ metaPathOf audioDir b' := by
                intro hcontra
                exact hap (congrArg (audioPathOf audioDir)
                  (hinj.2.1 b hbscript b' hb' helig helig' hcontra)).symm
              have ham : audioPathOf audioDir b ≠ metaPathOf audioDir b' :=
                fun hcontra =>
                  hinj.2.2 b' hb' b hbscript helig' helig hcontra.symm
              refine ⟨by rw [hfold]; exact hold1, ?_⟩
              rw [hfs2, fsFind_cons_ne _ _ _ _ hmm,
                fsFind_cons_ne _ _ _ _ ham]
              exact hold2
          have hacc2 : ∀ x ∈ (blockIdOf b, audioPathOf audioDir b) :: acc,
              (fsFind fs2 x.2).isSome = true := by
            intro x hx
            rcases List.mem_cons.mp hx with rfl | hx
            · simp [hfind2_audio]
            · rw [hfs2]
              exact fsFind_isSome_cons _ _ _ _
                (fsFind_isSome_cons _ _ _ _ (hacc x hx))
          obtain ⟨m, st', fs', heq, h1, h2, h3, h4, h5⟩ :=
            ih hsub' (get_or_create_voice_for_character collab client st
                (characterOf b) b.traits
                (if b.emotion = "" then "neutral" else b.emotion) session).2.2
              (get_or_create_voice_for_character collab client st
                (characterOf b) b.traits
                (if b.emotion = "" then "neutral" else b.emotion) session).2.1
              ((blockIdOf b, audioPathOf audioDir b) :: acc) fs2 hne2 hpol2
              hacc2
          refine ⟨m, st', fs', ?_, h1, h2,
            fun x hx => h3 x (List.mem_cons_of_mem _ hx), h4, ?_⟩
          · rw [generate_voices_go, if_neg hd, if_neg hw, if_neg hex]
            dsimp only
            cases hr : (get_or_create_voice_for_character collab client st
                (characterOf b) b.traits
                (if b.emotion = "" then "neutral" else b.emotion) session).1
                with
            | some voice_id =>
              dsimp only
              have hg : generate_audio_with_elevenlabs synth b.text voice_id
                  (audioPathOf audioDir b) fs =
                  (none, fs) := by
                simp [generate_audio_with_elevenlabs, hsynth]
              rw [hg]
              dsimp only
              have hcreate : create_mp3_file writeOk b.text (characterOf b)
                  (blockIdOf b) audioDir (audioFilenameOf b) fs =
                  Except.ok (audioPathOf audioDir b, fs2) := by
                simp [create_mp3_file, hwrite, hfs2, audioPathOf, metaPathOf]
              rw [hcreate]
              exact heq
            | none =>
              dsimp only
              have hcreate : create_mp3_file writeOk b.text (characterOf b)
                  (blockIdOf b) audioDir (audioFilenameOf b) fs =
                  Except.ok (audioPathOf audioDir b, fs2) := by
                simp [create_mp3_file, hwrite, hfs2, audioPathOf, metaPathOf]
              rw [hcreate]
              exact heq
          · intro b' hb' he'
            rcases List.mem_cons.mp hb' with rfl | hb'
            · exact h3 _ (List.mem_cons_self _ _)
            · exact h5 b' hb' he'

/-- C8: when real synthesis is unavailable or fails (every attempt yields
nothing), writes succeed, and no real media exists initially, every dialogue
block with non-whitespace text is provisioned: the audio map holds its
deterministic path `<character>_<blockId>.mp3`, a non-empty structurally-valid
placeholder file exists at that path, the sidecar metadata file records the
character, the original text and the block id, and every path the returned map
(hence the compiled script) references exists and is non-empty.  Stated for
scripts whose eligible blocks have non-colliding paths. -/
theorem c8_placeholder_completeness (collab : String → Option String)
    (client : Bool) (synth : String → String → Option Nat)
    (writeOk : String → Bool) (audioDir : String) (script : List Block)
    (st : VoiceGenState)
    (hsynth : ∀ t v, synth t v = none) (hwrite : ∀ p, writeOk p = true)
    (hinj : pathsInjective script audioDir) :
    (∀ b ∈ script, eligB b = true →
        ((blockIdOf b, audioPathOf audioDir b) ∈
          (generate_voices collab client synth writeOk audioDir script st
            []).1) ∧
        fsFind (generate_voices collab client synth writeOk audioDir script st
          []).2.2 (audioPathOf audioDir b) = some FileData.placeholderMp3 ∧
        fsFind (generate_voices collab client synth writeOk audioDir script st
          []).2.2 (metaPathOf audioDir b) = some (FileData.textFile
            (metadataContent (characterOf b) b.text (blockIdOf b)
              (audioFilenameOf b)))) ∧
      ∀ x ∈ (generate_voices collab client synth writeOk audioDir script st
          []).1, ∃ d, fsFind (generate_voices collab client synth writeOk
            audioDir script st []).2.2 x.2 = some d ∧ 0 < fileSize d := by
  obtain ⟨m, st', fs', heq, hne', hpol', haccm, hmem, hblocks⟩ :=
    generate_voices_go_c8_spec collab client synth writeOk audioDir script
      hsynth hwrite hinj script (fun b hb => hb) [] st [] []
      (fun p d hpd => by simp [fsFind] at hpd)
      (fun b hb he hs => by simp [fsFind] at hs)
      (fun x hx => absurd hx (List.not_mem_nil x))
  have hmap1 : (generate_voices collab client synth writeOk audioDir script st
      []).1 = m := by simp [generate_voices, heq]
  have hmap2 : (generate_voices collab client synth writeOk audioDir script st
      []).2.2 = fs' := by simp [generate_voices, heq]
  constructor
  · intro b hb he
    have hent := hblocks b hb he
    have hsome := hmem _ hent
    obtain ⟨hf1, hf2⟩ := hpol' b hb he hsome
    exact ⟨by rw [hmap1]; exact hent, by rw [hmap2]; exact hf1,
      by rw [hmap2]; exact hf2⟩
  · intro x hx
    rw [hmap1] at hx
    have hsome := hmem x hx
    cases hfd : fsFind fs' x.2 with
    | none => rw [hfd] at hsome; cases hsome
    | some d => exact ⟨d, by rw [hmap2]; exact hfd, hne' _ _ hfd⟩

/-- Witness for C8 at a concrete one-line script with no synthesis. -/
theorem c8_placeholder_completeness_witness :
    (∀ b ∈ [dlg "d0" "A" "Hi"], eligB b = true →
        ((blockIdOf b, audioPathOf "audio" b) ∈
          (generate_voices (fun _ => none) false (fun _ _ => none)
            (fun _ => true) "audio" [dlg "d0" "A" "Hi"] {} []).1) ∧
        fsFind (generate_voices (fun _ => none) false (fun _ _ => none)
          (fun _ => true) "audio" [dlg "d0" "A" "Hi"] {} []).2.2
          (audioPathOf "audio" b) = some FileData.placeholderMp3 ∧
        fsFind (generate_voices (fun _ => none) false (fun _ _ => none)
          (fun _ => true) "audio" [dlg "d0" "A" "Hi"] {} []).2.2
          (metaPathOf "audio" b) = some (FileData.textFile
            (metadataContent (characterOf b) b.text (blockIdOf b)
              (audioFilenameOf b)))) ∧
      ∀ x ∈ (generate_voices (fun _ => none) false (fun _ _ => none)
          (fun _ => true) "audio" [dlg "d0" "A" "Hi"] {} []).1,
        ∃ d, fsFind (generate_voices (fun _ => none) false (fun _ _ => none)
          (fun _ => true) "audio" [dlg "d0" "A" "Hi"] {} []).2.2 x.2 =
            some d ∧ 0 < fileSize d :=
  c8_placeholder_completeness (fun _ => none) false (fun _ _ => none)
    (fun _ => true) "audio" [dlg "d0" "A" "Hi"] {} (fun _ _ => rfl)
    (fun _ => rfl) (by unfold pathsInjective; decide)

/-- Contiguous-substring test over character lists (Python `in` on str). -/
def listInfix (pat : List Char) : List Char → Bool
  | [] => pat.isEmpty
  | c :: cs => pat.isPrefixOf (c :: cs) || listInfix pat cs

/-- C5 (counterexample): a timeline with an environment block about rain
compiles to exactly the fixed header, the two descriptive environment lines
and the wrap-up: no sound-cue instruction is emitted at all, and the only
mention of the rain effect is the unconditional catalogue declaration that an
empty timeline also produces. -/
theorem c5_counterexample :
    generate_renpy_script [envB "env1" "rain begins"] [] [] =
        renpyHeader [] [] ++ sceneOpening ++
          ["    # Environment: rain begins",
           "    \"The camera slowly pans across the rain begins.\"\n"] ++
          renpyWrapup ∧
      (generate_renpy_script [envB "env1" "rain begins"] [] []).countP
          (fun l => listInfix "play".data l.data) = 0 ∧
      (generate_renpy_script [envB "env1" "rain begins"] [] []).countP
          (fun l => listInfix "audio.rain".data l.data) =
        (generate_renpy_script [] [] []).countP
          (fun l => listInfix "audio.rain".data l.data) := by
  refine ⟨by decide, by decide, by decide⟩

/-- C5 (amended): an environment block contributes exactly two descriptive
lines (a comment and a camera-pan sentence built from the lower-cased
description); `environmental_impact.sound_implications` is never consulted and
no keyword-dependent sound-cue instruction exists, for rain or anything
else. -/
theorem c5_amended_no_sound_cue (blk : Block) (hty : blk.type = "environment")
    (charVars audio : List (String × String)) (rest : List Block)
    (shown : List String) :
    renpyBody charVars audio (blk :: rest) shown =
      ("    # Environment: " ++ blk.description) ::
        ("    \"The camera slowly pans across the " ++
          String.mk (blk.description.data.map Char.toLower) ++ ".\"\n") ::
        renpyBody charVars audio rest shown := by
  simp [renpyBody, hty]

/-- Witness for C5 (amended) at a concrete environment block. -/
theorem c5_amended_no_sound_cue_witness :
    renpyBody [] [] [envB "env1" "rain begins"] [] =
      ("    # Environment: " ++ (envB "env1" "rain begins").description) ::
        ("    \"The camera slowly pans across the " ++
          String.mk ((envB "env1" "rain begins").description.data.map
            Char.toLower) ++ ".\"\n") ::
        renpyBody [] [] [] [] :=
  c5_amended_no_sound_cue (envB "env1" "rain begins") (by decide) [] [] [] []
